import Mathlib

/-!
Verification of the SSE event-accumulation logic of the gradio backend-test
client (`src/gradio_client/backend_tester.py`).

The two streaming loops, `test_stream_generation` (text session) and
`test_vision_stream_analysis` (vision session), each consume a sequence of
server-sent events.  For every event the loop increments a chunk counter,
attempts to decode the payload as JSON, and dispatches on the decoded fields,
mutating an accumulated-text string and yielding display snapshots until a
terminal event is seen (at which point the generator returns).

The embedding below mirrors those loop bodies: a decoded JSON payload becomes
an `EventData` record of optional fields, a raw SSE event becomes
`Option EventData` (`none` models a payload `json.loads` rejects), the loop
body becomes a step function on a `StreamSession` state, and the `for` loop
becomes `runEvents`, a fold over the event list that stops when a step
signals the generator returned.  Yields of big formatted strings are
abstracted into `Snapshot` values carrying exactly the data interpolated into
them (elapsed wall-clock times are not modelled).  The question/image
prechecks that guard the HTTP requests of the four test operations are
modelled by the `Precheck` functions at the end of the definition section.
-/

namespace BackendTester

/-- A decoded JSON payload, restricted to the fields the two loops inspect.
A `none` field models an absent key; string-valued fields model the values
the schema carries there.  `done` is `Option Bool` because the text loop
tests `data.get('done') == True`. -/
structure EventData where
  done : Option Bool := none
  error : Option String := none
  content : Option String := none
  text : Option String := none
  finalText : Option String := none
  finishReason : Option String := none
  status : Option String := none
deriving DecidableEq

/-- A raw SSE event: `some d` if `json.loads(event.data)` succeeds and decodes
to `d`, `none` if it raises `json.JSONDecodeError`. -/
abbrev RawEvent := Option EventData

/-- The per-session mutable state of either streaming loop:
`accumulated_text` and `chunk_count`. -/
structure StreamSession where
  accumulatedText : String
  chunkCount : Nat
deriving DecidableEq

/-- State at the top of either loop: `accumulated_text = ""`, `chunk_count = 0`. -/
def initSession : StreamSession := ⟨"", 0⟩

/-- The data interpolated into each yielded display string.  One constructor
per `yield` site inside the two loops. -/
inductive Snapshot where
  | finalDone (accumulatedText : String) (chunkCount : Nat)
  | errorSnap (message : String)
  | progress (delta accumulatedText : String) (chunkCount : Nat)
  | legacy (accumulatedText : String) (chunkCount : Nat)
  | visionFinal (accumulatedText : String) (chunkCount : Nat) (finishReason : String)
  | visionProgress (delta accumulatedText : String) (chunkCount : Nat)
  | visionNearFinal (finalDelta accumulatedText : String) (chunkCount : Nat)
deriving DecidableEq

/-- Result of one loop iteration: the updated state, the snapshot yielded by
that iteration (if any), and whether the iteration executed `return`. -/
structure StepOut where
  state : StreamSession
  snapshot : Option Snapshot
  stop : Bool
deriving DecidableEq

/-- Truthiness of `data['content']` guarded by `'content' in data`, i.e. the
Python test `'content' in data and data['content']`. -/
def contentTruthy (d : EventData) : Bool :=
  match d.content with
  | some s => s != ""
  | none => false

/-- Truthiness of `data.get('finishReason')`: key present with a non-empty
string value. -/
def finishReasonTruthy (d : EventData) : Bool :=
  match d.finishReason with
  | some s => s != ""
  | none => false

/-- Helper for `strContains`: does `n` occur contiguously in `h`? -/
def strContainsAux (n : List Char) : List Char → Bool
  | [] => n.isPrefixOf []
  | c :: t => n.isPrefixOf (c :: t) || strContainsAux n t

/-- Python substring membership `needle in hay` on strings: `needle` occurs
contiguously anywhere in `hay`. -/
def strContains (needle hay : String) : Bool :=
  strContainsAux needle.data hay.data

/-- One iteration of the `test_stream_generation` loop
(`backend_tester.py` lines 267-352).  Mirrors, in order: `chunk_count += 1`;
JSON decode (`none` hits the `except json.JSONDecodeError: continue`);
`if data.get('done') == True` (final snapshot, `return`);
`if 'error' in data` (error snapshot, `return`);
`if 'content' in data and data['content']` (append delta, yield);
`elif 'text' in data` (replace `accumulated_text` wholesale, yield);
otherwise fall through with no yield. -/
def stepText (st : StreamSession) (ev : RawEvent) : StepOut :=
  match ev with
  | none => ⟨⟨st.accumulatedText, st.chunkCount + 1⟩, none, false⟩
  | some d =>
    if d.done = some true then
      ⟨⟨st.accumulatedText, st.chunkCount + 1⟩,
        some (.finalDone st.accumulatedText (st.chunkCount + 1)), true⟩
    else if d.error.isSome then
      ⟨⟨st.accumulatedText, st.chunkCount + 1⟩,
        some (.errorSnap (d.error.getD "未知错误")), true⟩
    else if contentTruthy d then
      ⟨⟨st.accumulatedText ++ d.content.getD "", st.chunkCount + 1⟩,
        some (.progress (d.content.getD "")
          (st.accumulatedText ++ d.content.getD "") (st.chunkCount + 1)), false⟩
    else if d.text.isSome then
      ⟨⟨d.text.getD "", st.chunkCount + 1⟩,
        some (.legacy (d.text.getD "") (st.chunkCount + 1)), false⟩
    else
      ⟨⟨st.accumulatedText, st.chunkCount + 1⟩, none, false⟩

/-- One iteration of the `test_vision_stream_analysis` loop
(`backend_tester.py` lines 622-715).  Mirrors, in order: `chunk_count += 1`;
JSON decode; `if data.get('finishReason') or data.get('status') == 'completed'`
(final snapshot, `return`); `if 'error' in data` (error snapshot, `return`);
`if 'text' in data` (append delta, yield);
`elif 'finalText' in data` (append only when
`final_delta and final_delta not in accumulated_text`, yield either way);
otherwise fall through with no yield. -/
def stepVision (st : StreamSession) (ev : RawEvent) : StepOut :=
  match ev with
  | none => ⟨⟨st.accumulatedText, st.chunkCount + 1⟩, none, false⟩
  | some d =>
    if finishReasonTruthy d || d.status == some "completed" then
      ⟨⟨st.accumulatedText, st.chunkCount + 1⟩,
        some (.visionFinal st.accumulatedText (st.chunkCount + 1)
          (d.finishReason.getD "正常完成")), true⟩
    else if d.error.isSome then
      ⟨⟨st.accumulatedText, st.chunkCount + 1⟩,
        some (.errorSnap (d.error.getD "未知错误")), true⟩
    else if d.text.isSome then
      ⟨⟨st.accumulatedText ++ d.text.getD "", st.chunkCount + 1⟩,
        some (.visionProgress (d.text.getD "")
          (st.accumulatedText ++ d.text.getD "") (st.chunkCount + 1)), false⟩
    else if d.finalText.isSome then
      if d.finalText.getD "" != "" && !(strContains (d.finalText.getD "") st.accumulatedText) then
        ⟨⟨st.accumulatedText ++ d.finalText.getD "", st.chunkCount + 1⟩,
          some (.visionNearFinal (d.finalText.getD "")
            (st.accumulatedText ++ d.finalText.getD "") (st.chunkCount + 1)), false⟩
      else
        ⟨⟨st.accumulatedText, st.chunkCount + 1⟩,
          some (.visionNearFinal (d.finalText.getD "")
            st.accumulatedText (st.chunkCount + 1)), false⟩
    else
      ⟨⟨st.accumulatedText, st.chunkCount + 1⟩, none, false⟩

/-- Which streaming endpoint a session came from. -/
inductive SessionKind where
  | text
  | vision
deriving DecidableEq

/-- The loop body of the session of the given kind. -/
def stepOf : SessionKind → StreamSession → RawEvent → StepOut
  | .text => stepText
  | .vision => stepVision

/-- Aggregate result of running a loop over a finite event sequence:
all yielded snapshots in order, the final state, how many events the loop
consumed, and whether it ended by `return` (as opposed to exhausting the
input). -/
structure RunResult where
  snapshots : List Snapshot
  state : StreamSession
  consumed : Nat
  stopped : Bool
deriving DecidableEq

/-- The `for event in client.events():` loop over a finite list of raw
events: fold the step function, stopping as soon as an iteration returns. -/
def runEvents (step : StreamSession → RawEvent → StepOut) :
    StreamSession → List RawEvent → RunResult
  | st, [] => ⟨[], st, 0, false⟩
  | st, e :: es =>
    if (step st e).stop then
      ⟨(step st e).snapshot.toList, (step st e).state, 1, true⟩
    else
      ⟨(step st e).snapshot.toList ++ (runEvents step (step st e).state es).snapshots,
        (runEvents step (step st e).state es).state,
        (runEvents step (step st e).state es).consumed + 1,
        (runEvents step (step st e).state es).stopped⟩

/-- Event whose decoded payload is exactly a `content` field,
e.g. `{"content": s}`. -/
def contentEvent (s : String) : EventData := { content := some s }

/-- The `{"done": true}` terminal event of a text session. -/
def doneEvent : EventData := { done := some true }

/-- Event whose decoded payload is exactly a `text` field. -/
def textEvent (s : String) : EventData := { text := some s }

/-- Event whose decoded payload is exactly a `finalText` field. -/
def finalTextEvent (s : String) : EventData := { finalText := some s }

/-- Concatenation of a list of strings in order (the spec's "concatenation of
all deltas in arrival order"). -/
def concatAll : List String → String
  | [] => ""
  | s :: rest => s ++ concatAll rest

/-- An event on which the loop of the given kind executes `return`:
for a text session `done == True` or an `error` key; for a vision session a
truthy `finishReason`, `status == "completed"`, or an `error` key.
Unparseable payloads are never terminal. -/
def isTerminalEvent : SessionKind → RawEvent → Bool
  | _, none => false
  | .text, some d => d.done == some true || d.error.isSome
  | .vision, some d =>
      finishReasonTruthy d || d.status == some "completed" || d.error.isSome

/-- Python `str.strip()` with no arguments: drop whitespace characters from
both ends. -/
def pyStrip (s : String) : String :=
  String.mk (((s.data.dropWhile Char.isWhitespace).reverse.dropWhile
    Char.isWhitespace).reverse)

/-- Outcome of the argument validation a test operation performs before
issuing any HTTP request: either an immediate rejection message, or the
question string the request payload will carry. -/
inductive Precheck where
  | rejected (message : String)
  | proceed (question : String)
deriving DecidableEq

/-- Default question substituted by the vision operations when the given
question strips to empty (`backend_tester.py` lines 394 and 540). -/
def defaultVisionQuestion : String := "请详细分析这张图片"

/-- Argument validation of `test_standard_generation`
(`backend_tester.py` lines 111-112): an empty-stripping question is rejected
outright. -/
def standardGenerationCheck (question : String) : Precheck :=
  if pyStrip question = "" then .rejected "❌ 请输入测试问题"
  else .proceed question

/-- Argument validation of `test_stream_generation`
(`backend_tester.py` lines 218-220): an empty-stripping question is rejected
outright. -/
def streamGenerationCheck (question : String) : Precheck :=
  if pyStrip question = "" then .rejected "❌ 请输入测试问题"
  else .proceed question

/-- Argument validation of `test_vision_analysis`
(`backend_tester.py` lines 390-394): a missing image is rejected before any
request; an empty-stripping question is replaced by the default question. -/
def visionAnalysisCheck {α : Type} (image : Option α) (question : String) :
    Precheck :=
  match image with
  | none => .rejected "❌ 请上传图片"
  | some _ =>
      .proceed (if pyStrip question = "" then defaultVisionQuestion else question)

/-- Argument validation of `test_vision_stream_analysis`
(`backend_tester.py` lines 535-540): same policy as `visionAnalysisCheck`. -/
def visionStreamCheck {α : Type} (image : Option α) (question : String) :
    Precheck :=
  match image with
  | none => .rejected "❌ 请上传图片"
  | some _ =>
      .proceed (if pyStrip question = "" then defaultVisionQuestion else question)

/-! ### Helper lemmas -/

theorem runEvents_nil (step : StreamSession → RawEvent → StepOut) (st : StreamSession) :
    runEvents step st [] = ⟨[], st, 0, false⟩ := rfl

theorem runEvents_cons_stop (step : StreamSession → RawEvent → StepOut)
    (st : StreamSession) (e : RawEvent) (es : List RawEvent)
    (h : (step st e).stop = true) :
    runEvents step st (e :: es)
      = ⟨(step st e).snapshot.toList, (step st e).state, 1, true⟩ := by
  simp [runEvents, h]

theorem runEvents_cons_go (step : StreamSession → RawEvent → StepOut)
    (st : StreamSession) (e : RawEvent) (es : List RawEvent)
    (h : (step st e).stop = false) :
    runEvents step st (e :: es)
      = ⟨(step st e).snapshot.toList ++ (runEvents step (step st e).state es).snapshots,
          (runEvents step (step st e).state es).state,
          (runEvents step (step st e).state es).consumed + 1,
          (runEvents step (step st e).state es).stopped⟩ := by
  simp [runEvents, h]

theorem stepText_chunkCount (st : StreamSession) (ev : RawEvent) :
    (stepText st ev).state.chunkCount = st.chunkCount + 1 := by
  cases ev with
  | none => rfl
  | some d =>
    simp only [stepText]
    repeat' split
    all_goals rfl

theorem stepVision_chunkCount (st : StreamSession) (ev : RawEvent) :
    (stepVision st ev).state.chunkCount = st.chunkCount + 1 := by
  cases ev with
  | none => rfl
  | some d =>
    simp only [stepVision]
    repeat' split
    all_goals rfl

theorem runEvents_chunkCount (step : StreamSession → RawEvent → StepOut)
    (hstep : ∀ st ev, (step st ev).state.chunkCount = st.chunkCount + 1) :
    ∀ (evs : List RawEvent) (st : StreamSession),
      (runEvents step st evs).state.chunkCount
        = st.chunkCount + (runEvents step st evs).consumed
  | [], st => by simp [runEvents_nil]
  | e :: es, st => by
    by_cases h : (step st e).stop = true
    · rw [runEvents_cons_stop step st e es h]
      simp [hstep]
    · rw [runEvents_cons_go step st e es (by simpa using h)]
      have ih := runEvents_chunkCount step hstep es (step st e).state
      simp only [ih, hstep st e]
      omega

theorem getLast_cons_of_some {α : Type} (x y : α) (l : List α)
    (h : l.getLast? = some y) : (x :: l).getLast? = some y := by
  cases l with
  | nil => simp at h
  | cons a t => rw [List.getLast?_cons_cons]; exact h

/-! ### The claims -/

/-- Claim C2: in both session kinds the chunk counter is incremented exactly
once per received event, regardless of payload validity or dispatch branch,
so after the loop has consumed N events the counter equals N. -/
theorem c2_chunk_counter_exact :
    (∀ (k : SessionKind) (st : StreamSession) (ev : RawEvent),
        (stepOf k st ev).state.chunkCount = st.chunkCount + 1)
    ∧ ∀ (k : SessionKind) (evs : List RawEvent),
        (runEvents (stepOf k) initSession evs).state.chunkCount
          = (runEvents (stepOf k) initSession evs).consumed := by
  constructor
  · intro k st ev
    cases k with
    | text => exact stepText_chunkCount st ev
    | vision => exact stepVision_chunkCount st ev
  · intro k evs
    have h : ∀ st ev, (stepOf k st ev).state.chunkCount = st.chunkCount + 1 := by
      cases k with
      | text => exact stepText_chunkCount
      | vision => exact stepVision_chunkCount
    simpa [initSession] using runEvents_chunkCount (stepOf k) h evs initSession

/-- Claim C6: an event whose payload fails to decode as JSON is skipped in
both session kinds: the accumulated text is unchanged, no snapshot is
yielded, the session is not terminated, and only the chunk counter reflects
the event.  (The `except json.JSONDecodeError: continue` handler makes this
total, so no exception propagates.) -/
theorem c6_malformed_json_skipped (k : SessionKind) (st : StreamSession) :
    stepOf k st none = ⟨⟨st.accumulatedText, st.chunkCount + 1⟩, none, false⟩ := by
  cases k <;> rfl

/-- Claim C9: whenever the done-branch of `test_stream_generation` yields its
final snapshot, the chunk count it divides `total_duration` by is at least 1,
because the counter was incremented before dispatch on the very event that
triggered the branch: the per-chunk average never divides by zero. -/
theorem c9_done_branch_divisor_positive (st : StreamSession) (ev : RawEvent)
    (a : String) (c : Nat)
    (h : (stepText st ev).snapshot = some (.finalDone a c)) : 0 < c := by
  cases ev with
  | none => simp [stepText] at h
  | some d =>
    simp only [stepText] at h
    split at h
    · simp only [Option.some.injEq, Snapshot.finalDone.injEq] at h
      omega
    · split at h
      · simp at h
      · split at h
        · simp at h
        · split at h
          · simp at h
          · simp at h

theorem c9_witness :
    (stepText initSession (some doneEvent)).snapshot = some (.finalDone "" 1) ∧ 0 < 1 :=
  ⟨by decide, c9_done_branch_divisor_positive initSession (some doneEvent) "" 1 (by decide)⟩

/-- Claim C5: an event carrying a `text` field, when no higher-priority
branch matches, is handled asymmetrically: the text session replaces the
accumulated text wholesale with the field value, while the vision session
appends the field value; both yield an in-progress snapshot and neither
terminates the session. -/
theorem c5_text_field_asymmetry (st : StreamSession) (d : EventData) (s : String)
    (hs : d.text = some s) (hd : d.done ≠ some true) (he : d.error = none)
    (hc : contentTruthy d = false) (hf : finishReasonTruthy d = false)
    (hst : d.status ≠ some "completed") :
    stepText st (some d)
      = ⟨⟨s, st.chunkCount + 1⟩, some (.legacy s (st.chunkCount + 1)), false⟩
    ∧ stepVision st (some d)
      = ⟨⟨st.accumulatedText ++ s, st.chunkCount + 1⟩,
          some (.visionProgress s (st.accumulatedText ++ s) (st.chunkCount + 1)),
          false⟩ := by
  have hbeq : (d.status == some "completed") = false := by
    simpa using hst
  constructor
  · simp [stepText, hd, he, hc, hs]
  · simp [stepVision, hf, hbeq, he, hs]

theorem c5_witness :
    stepText ⟨"A", 0⟩ (some { text := some "y" })
      = ⟨⟨"y", 1⟩, some (.legacy "y" 1), false⟩
    ∧ stepVision ⟨"A", 0⟩ (some { text := some "y" })
      = ⟨⟨"Ay", 1⟩, some (.visionProgress "y" "Ay" 1), false⟩ :=
  c5_text_field_asymmetry ⟨"A", 0⟩ { text := some "y" } "y" rfl (by decide) rfl
    rfl rfl (by decide)

/-- Claim C7 counterexample: a vision event whose `finishReason` key is
present but holds a falsy value (the empty string) is not treated as
terminal: the loop yields no snapshot and does not stop, because the code
tests the truthiness of `data.get('finishReason')`, not key presence. -/
theorem c7_counterexample :
    (({ finishReason := some "" } : EventData).finishReason).isSome = true
    ∧ (stepVision initSession (some { finishReason := some "" })).snapshot = none
    ∧ (stepVision initSession (some { finishReason := some "" })).stop = false := by
  decide

/-- Claim C7 (amended): a successfully parsed vision event whose
`finishReason` is present with a truthy (non-empty) value, or whose `status`
equals "completed", is terminal: the loop yields the final snapshot carrying
the chunk count and final accumulated text and then returns. -/
theorem c7_vision_terminal (st : StreamSession) (d : EventData)
    (h : finishReasonTruthy d = true ∨ d.status = some "completed") :
    stepVision st (some d)
      = ⟨⟨st.accumulatedText, st.chunkCount + 1⟩,
          some (.visionFinal st.accumulatedText (st.chunkCount + 1)
            (d.finishReason.getD "正常完成")), true⟩ := by
  have hcond : (finishReasonTruthy d || d.status == some "completed") = true := by
    rcases h with h | h
    · simp [h]
    · simp [h]
  simp [stepVision, hcond]

theorem c7_witness :
    stepVision initSession (some { status := some "completed" })
      = ⟨⟨"", 1⟩, some (.visionFinal "" 1 "正常完成"), true⟩ :=
  c7_vision_terminal initSession { status := some "completed" } (Or.inr rfl)

theorem terminal_event_stops (k : SessionKind) (e : RawEvent)
    (he : isTerminalEvent k e = true) (st : StreamSession) :
    (stepOf k st e).stop = true := by
  cases k with
  | text =>
    cases e with
    | none => simp [isTerminalEvent] at he
    | some d =>
      simp only [isTerminalEvent, Bool.or_eq_true, beq_iff_eq] at he
      simp only [stepOf, stepText]
      rcases he with h | h
      · simp [h]
      · by_cases hd : d.done = some true
        · simp [hd]
        · simp [hd, h]
  | vision =>
    cases e with
    | none => simp [isTerminalEvent] at he
    | some d =>
      simp only [isTerminalEvent, Bool.or_eq_true] at he
      simp only [stepOf, stepVision]
      by_cases hterm : (finishReasonTruthy d || d.status == some "completed") = true
      · simp [hterm]
      · have herr : d.error.isSome = true := by
          rcases he with (h | h) | h
          · exact absurd (by simp [h]) hterm
          · exact absurd (by simp [h]) hterm
          · exact h
        simp [hterm, herr]

theorem runEvents_terminal_absorb (step : StreamSession → RawEvent → StepOut)
    (e : RawEvent) (he : ∀ st, (step st e).stop = true) :
    ∀ (pre post : List RawEvent) (st : StreamSession),
      (runEvents step st (pre ++ e :: post)).snapshots
        = (runEvents step st (pre ++ [e])).snapshots
  | [], post, st => by
    simp only [List.nil_append]
    rw [runEvents_cons_stop step st e post (he st),
      runEvents_cons_stop step st e [] (he st)]
  | p :: pre, post, st => by
    simp only [List.cons_append]
    by_cases h : (step st p).stop = true
    · rw [runEvents_cons_stop step st p _ h, runEvents_cons_stop step st p _ h]
    · rw [runEvents_cons_go step st p _ (by simpa using h),
        runEvents_cons_go step st p _ (by simpa using h)]
      simp only []
      rw [runEvents_terminal_absorb step e he pre post (step st p).state]

/-- Claim C4 counterexample: the claim's terminal condition for a vision
session is "finishReason present", but the code tests the truthiness of
`data.get('finishReason')`.  The event `{"finishReason": ""}` carries the
key, so the claim deems it terminal and forbids any later snapshot, yet the
code silently consumes it and a subsequent `{"text": "hi"}` event still
emits an in-progress snapshot. -/
theorem c4_counterexample :
    (({ finishReason := some "" } : EventData).finishReason).isSome = true
    ∧ (runEvents stepVision initSession
          [some { finishReason := some "" }, some (textEvent "hi")]).snapshots
        = [.visionProgress "hi" "hi" 2] := by
  decide

/-- Claim C4 (amended): once a terminal event has been processed
(`done: true` for a text session; `finishReason` present with a truthy
(non-empty) value or `status == "completed"` for a vision session; or an
`error` field for either), no further snapshots are emitted for that session
even if more events remain in the input sequence. -/
theorem c4_terminal_stops_snapshots (k : SessionKind) (pre post : List RawEvent)
    (e : RawEvent) (he : isTerminalEvent k e = true) :
    (runEvents (stepOf k) initSession (pre ++ e :: post)).snapshots
      = (runEvents (stepOf k) initSession (pre ++ [e])).snapshots :=
  runEvents_terminal_absorb (stepOf k) e (terminal_event_stops k e he) pre post
    initSession

theorem c4_witness :
    isTerminalEvent .text (some doneEvent) = true
    ∧ (runEvents (stepOf .text) initSession
          ([] ++ some doneEvent :: [some (contentEvent "x")])).snapshots
        = (runEvents (stepOf .text) initSession ([] ++ [some doneEvent])).snapshots :=
  ⟨by decide,
    c4_terminal_stops_snapshots .text [] [some (contentEvent "x")] (some doneEvent)
      (by decide)⟩

/-- Claim C3 counterexample: in a text session the accumulated text can
shrink.  After `{"content": "Hello"}` the accumulated text is `"Hello"`;
processing `{"text": "x"}` then replaces it wholesale with `"x"`, which is
strictly shorter and does not retain the previous content. -/
theorem c3_counterexample :
    ((stepText initSession (some (contentEvent "Hello"))).state).accumulatedText
        = "Hello"
    ∧ ((stepText (stepText initSession (some (contentEvent "Hello"))).state
          (some (textEvent "x"))).state).accumulatedText = "x"
    ∧ ("x" : String).length < ("Hello" : String).length := by
  decide

/-- Claim C3 (amended): in a vision session the accumulated text never
shrinks — after any event it retains the previous accumulation as a prefix.
In a text session every event either likewise extends the accumulated text,
or is a legacy `text`-field event, which replaces the accumulated text
wholesale with the field value and may shrink it. -/
theorem c3_accumulated_text_growth (st : StreamSession) (ev : RawEvent) :
    (∃ t, (stepVision st ev).state.accumulatedText = st.accumulatedText ++ t)
    ∧ ((∃ t, (stepText st ev).state.accumulatedText = st.accumulatedText ++ t)
        ∨ ∃ d s, ev = some d ∧ d.text = some s
            ∧ (stepText st ev).state.accumulatedText = s) := by
  constructor
  · cases ev with
    | none => exact ⟨"", (String.append_empty _).symm⟩
    | some d =>
      simp only [stepVision]
      split
      · exact ⟨"", (String.append_empty _).symm⟩
      · split
        · exact ⟨"", (String.append_empty _).symm⟩
        · split
          · exact ⟨d.text.getD "", rfl⟩
          · split
            · split
              · exact ⟨d.finalText.getD "", rfl⟩
              · exact ⟨"", (String.append_empty _).symm⟩
            · exact ⟨"", (String.append_empty _).symm⟩
  · cases ev with
    | none => exact Or.inl ⟨"", (String.append_empty _).symm⟩
    | some d =>
      simp only [stepText]
      split
      · exact Or.inl ⟨"", (String.append_empty _).symm⟩
      · split
        · exact Or.inl ⟨"", (String.append_empty _).symm⟩
        · split
          · exact Or.inl ⟨d.content.getD "", rfl⟩
          · split
            · rename_i htext
              obtain ⟨v, hv⟩ := Option.isSome_iff_exists.mp htext
              exact Or.inr ⟨d, v, rfl, hv, by simp [hv]⟩
            · exact Or.inl ⟨"", (String.append_empty _).symm⟩

theorem run_content_then_done (deltas : List String) :
    ∀ (st : StreamSession), (∀ x ∈ deltas, x ≠ "") →
      (runEvents stepText st
          (deltas.map (fun s => some (contentEvent s)) ++ [some doneEvent])).snapshots.getLast?
        = some (.finalDone (st.accumulatedText ++ concatAll deltas)
            (st.chunkCount + (deltas.length + 1))) := by
  induction deltas with
  | nil =>
    intro st _
    simp only [List.map_nil, List.nil_append]
    rw [runEvents_cons_stop stepText st (some doneEvent) []
      (by simp [stepText, doneEvent])]
    simp [stepText, doneEvent, concatAll, String.append_empty]
  | cons d ds ih =>
    intro st h
    have hd : d ≠ "" := h d (List.mem_cons_self d ds)
    have hstep : stepText st (some (contentEvent d))
        = ⟨⟨st.accumulatedText ++ d, st.chunkCount + 1⟩,
            some (.progress d (st.accumulatedText ++ d) (st.chunkCount + 1)),
            false⟩ := by
      simp [stepText, contentEvent, contentTruthy, hd]
    simp only [List.map_cons, List.cons_append]
    rw [runEvents_cons_go stepText st (some (contentEvent d)) _ (by rw [hstep])]
    simp only [hstep]
    have ihapp := ih ⟨st.accumulatedText ++ d, st.chunkCount + 1⟩
      (fun x hx => h x (List.mem_cons_of_mem d hx))
    simp only [Option.toList_some, List.singleton_append]
    simp only at ihapp
    have hlast := getLast_cons_of_some
      (Snapshot.progress d (st.accumulatedText ++ d) (st.chunkCount + 1)) _ _ ihapp
    rw [hlast]
    have hA : (st.accumulatedText ++ d) ++ concatAll ds
        = st.accumulatedText ++ concatAll (d :: ds) := by
      rw [String.append_assoc]
      rfl
    rw [hA]
    congr 2
    simp only [List.length_cons]
    omega

/-- Claim C1: in a text session, for any finite sequence of events each
carrying only a non-empty `content` field, followed by `{"done": true}`, the
terminal snapshot reports exactly the concatenation of all content deltas in
arrival order, with a chunk count of one more than the number of deltas. -/
theorem c1_text_accumulation (deltas : List String) (h : ∀ x ∈ deltas, x ≠ "") :
    (runEvents stepText initSession
        (deltas.map (fun s => some (contentEvent s)) ++ [some doneEvent])).snapshots.getLast?
      = some (.finalDone (concatAll deltas) (deltas.length + 1)) := by
  have := run_content_then_done deltas initSession h
  simpa [initSession, String.empty_append] using this

theorem c1_witness :
    (runEvents stepText initSession
        ((["Hello ", "world"].map (fun s => some (contentEvent s)))
          ++ [some doneEvent])).snapshots.getLast?
      = some (.finalDone "Hello world" 3) := by
  have h := c1_text_accumulation ["Hello ", "world"] (by decide)
  exact h.trans (by decide)

/-- Claim C8 counterexample: the vision `finalText` dedup guard tests Python
substring membership (`final_delta not in accumulated_text`), not the
trailing-substring condition the claim states.  With accumulated text
`"aba"` (from a `text` event) and `finalText` value `"ab"`, the value is
non-empty and not a suffix of `"aba"`, so per the claim it should be
appended, yet the code leaves the accumulated text `"aba"` because `"ab"`
occurs inside it. -/
theorem c8_counterexample :
    (runEvents stepVision initSession
        [some (textEvent "aba"), some (finalTextEvent "ab")]).state.accumulatedText
      = "aba"
    ∧ ("ab" : String) ≠ ""
    ∧ List.isSuffixOf ("ab" : String).data ("aba" : String).data = false := by
  decide

/-- Claim C8 (amended): in a vision session, a `finalText` event (with no
higher-priority branch matching) appends its value if and only if the value
is non-empty and does not already occur as a substring anywhere in the
accumulated text; in particular a value equal to the current trailing
substring leaves the accumulated text unchanged.  A near-final snapshot is
emitted either way and the session is not terminated. -/
theorem c8_final_text_dedup (st : StreamSession) (d : EventData) (s : String)
    (hft : d.finalText = some s) (hf : finishReasonTruthy d = false)
    (hst : d.status ≠ some "completed") (he : d.error = none)
    (htx : d.text = none) :
    ((stepVision st (some d)).state.accumulatedText
        = if s ≠ "" ∧ strContains s st.accumulatedText = false
          then st.accumulatedText ++ s else st.accumulatedText)
    ∧ (stepVision st (some d)).snapshot
        = some (.visionNearFinal s
            ((stepVision st (some d)).state.accumulatedText) (st.chunkCount + 1))
    ∧ (stepVision st (some d)).stop = false := by
  have hbeq : (d.status == some "completed") = false := by simpa using hst
  have hout : stepVision st (some d)
      = if s != "" && !(strContains s st.accumulatedText) then
          ⟨⟨st.accumulatedText ++ s, st.chunkCount + 1⟩,
            some (.visionNearFinal s (st.accumulatedText ++ s) (st.chunkCount + 1)),
            false⟩
        else
          ⟨⟨st.accumulatedText, st.chunkCount + 1⟩,
            some (.visionNearFinal s st.accumulatedText (st.chunkCount + 1)),
            false⟩ := by
    simp [stepVision, hf, hbeq, he, htx, hft]
  by_cases hcond : (s != "" && !(strContains s st.accumulatedText)) = true
  · have hprop : s ≠ "" ∧ strContains s st.accumulatedText = false := by
      simpa using hcond
    rw [hout, if_pos hcond, if_pos hprop]
    exact ⟨rfl, rfl, rfl⟩
  · have hprop : ¬(s ≠ "" ∧ strContains s st.accumulatedText = false) := by
      simpa using hcond
    rw [hout, if_neg (by simpa using hcond), if_neg hprop]
    exact ⟨rfl, rfl, rfl⟩

theorem c8_witness :
    (stepVision ⟨"abc", 0⟩ (some (finalTextEvent "X"))).state.accumulatedText
      = "abcX"
    ∧ (stepVision ⟨"abc", 0⟩ (some (finalTextEvent "X"))).stop = false := by
  have h := c8_final_text_dedup ⟨"abc", 0⟩ (finalTextEvent "X") "X" rfl rfl
    (by decide) rfl rfl
  exact ⟨h.1.trans (by decide), h.2.2⟩

/-- Claim C10: the two vision operations never reject an empty or
whitespace-only question — they substitute the default question and proceed —
while a missing image is rejected immediately; the text operations instead
reject a question that strips to empty outright. -/
theorem c10_question_prechecks {α : Type} (img : α) (q : String) :
    visionAnalysisCheck (some img) q
        = .proceed (if pyStrip q = "" then defaultVisionQuestion else q)
    ∧ visionStreamCheck (some img) q
        = .proceed (if pyStrip q = "" then defaultVisionQuestion else q)
    ∧ visionAnalysisCheck (none : Option α) q = .rejected "❌ 请上传图片"
    ∧ visionStreamCheck (none : Option α) q = .rejected "❌ 请上传图片"
    ∧ (pyStrip q = "" →
        standardGenerationCheck q = .rejected "❌ 请输入测试问题"
        ∧ streamGenerationCheck q = .rejected "❌ 请输入测试问题") := by
  refine ⟨rfl, rfl, rfl, rfl, fun hq => ⟨?_, ?_⟩⟩
  · simp [standardGenerationCheck, hq]
  · simp [streamGenerationCheck, hq]

theorem c10_witness :
    visionAnalysisCheck (some ()) "  " = .proceed defaultVisionQuestion
    ∧ visionStreamCheck (some ()) "  " = .proceed defaultVisionQuestion
    ∧ visionAnalysisCheck (none : Option Unit) "  " = .rejected "❌ 请上传图片"
    ∧ standardGenerationCheck "  " = .rejected "❌ 请输入测试问题"
    ∧ streamGenerationCheck "  " = .rejected "❌ 请输入测试问题" := by
  have h := c10_question_prechecks () "  "
  have hq : pyStrip "  " = "" := by decide
  exact ⟨h.1.trans (by decide), h.2.1.trans (by decide), h.2.2.1,
    (h.2.2.2.2 hq).1, (h.2.2.2.2 hq).2⟩

end BackendTester
